import Mathlib

/-!
Verification of the ATmega8A HC-05 control sketch
(`src/Software/ATmega8A_Control_1.0.ino`).

The sketch is embedded shallowly:

* pins and delays: the numeric `#define`s are kept; `delay` calls have no
  observable effect and are dropped;
* the serial port and the GPIO pins are observed through an explicit trace of
  `Event`s (`serialWrite` for `Serial.write`, `pinWrite` for `digitalWrite`,
  `storeWrite` for an assignment to one of the four `prev...` arrays);
* the four global `char prev...[INFOLENGTH]` arrays become a `ConfigStore`
  record of Lean strings (a C string is its bytes up to the first NUL);
* a C character buffer is modelled as a total function `Nat → Char`: the
  bytes actually delivered occupy a prefix, everything beyond is arbitrary
  memory (`bufOf`);
* the unbounded `for`/`while` loops of `CheckChar` run a fixed number of
  iterations in the source (`DESIGNATOR`, `INFOLENGTH`), so they are embedded
  with that iteration count as fuel; the only genuinely unbounded loop (the
  wait in `ReadAnswer`) is embedded as a fuel-indexed poll `waitForFirstByte`;
* array accesses of the receive/parse path are additionally mirrored by
  functions returning the list of indices read or written, so that bounds
  claims can be stated about them.
-/

namespace ATmega

/-! ### Pin numbers and constants (the `#define`s of the sketch) -/

def KEY34 : Nat := 4
def RESETBT : Nat := 5
def EN_AB : Nat := 7
def EN_RST : Nat := 8
def EN_MB : Nat := 9
def SavingLED : Nat := 14
def BusyLED : Nat := 15
def CP : Nat := 16
def SW : Nat := 17

def DESIGNATOR : Nat := 7
def INFOLENGTH : Nat := 30

def UARTID : Nat := 1
def NAMEID : Nat := 2
def PSWDID : Nat := 3
def ROLEID : Nat := 4

/-- The NUL byte, `'\0'` in the sketch. -/
def nulChar : Char := Char.ofNat 0

/-! ### Data model -/

/-- Which of the four module settings a transaction concerns. -/
inductive ConfigField where
  | Uart
  | Name
  | Password
  | Role
deriving DecidableEq

/-- The four global `char prev...[INFOLENGTH]` arrays of the sketch.
A field holds the bytes of the array up to its first NUL terminator. -/
structure ConfigStore where
  prevUART : String
  prevNAME : String
  prevPSWD : String
  prevROLE : String
deriving DecidableEq

/-- Observable actions of the sketch: a `Serial.write` of a string, a
`digitalWrite` of a level (`true` = HIGH, `false` = LOW) to a pin, and a
store of a parsed value into one of the four `prev...` arrays. -/
inductive Event where
  | serialWrite : String → Event
  | pinWrite : Nat → Bool → Event
  | storeWrite : ConfigField → String → Event
deriving DecidableEq

/-- The serial bytes of a trace: payloads of the `serialWrite` events, in
order. -/
def serialWrites : List Event → List String
  | [] => []
  | Event.serialWrite s :: t => s :: serialWrites t
  | _ :: t => serialWrites t

/-- The concatenated serial output of a trace. -/
def serialOut : List Event → String
  | [] => ""
  | Event.serialWrite s :: t => s ++ serialOut t
  | _ :: t => serialOut t

/-- Level left on a pin by a trace, `none` if the trace never writes it. -/
def lastLevel (t : List Event) (pin : Nat) : Option Bool :=
  t.foldl (fun acc e =>
    match e with
    | Event.pinWrite p b => if p = pin then some b else acc
    | _ => acc) none

/-- A 30-byte C buffer holding the bytes `l` in its prefix: indices past the
delivered bytes read arbitrary memory `junk`. -/
def bufOf (l : List Char) (junk : Nat → Char) (k : Nat) : Char :=
  if k < l.length then l.getD k ' ' else junk (k - l.length)

/-! ### `CheckChar` — the response parser and store update

```c
for (i = 0; i < DESIGNATOR; i++) { if (Answer[i] == ':') break; }
for (m = 0; m < INFOLENGTH; m++) {
  if (Answer[i+m+1] != '\r') UsefulInfo[m] = Answer[i+m+1]; else break; }
UsefulInfo[m] = '\0';
switch (CommandID) { ... copy UsefulInfo into prevXXX up to its NUL ... }
```
-/

/-- The colon scan: value of `i` after the first `for` loop, scanning from
`i` with `fuel` iterations left. -/
def colonIndexFrom (ans : Nat → Char) : Nat → Nat → Nat
  | i, 0 => i
  | i, fuel + 1 => if ans i = ':' then i else colonIndexFrom ans (i + 1) fuel

/-- Value of `i` after the colon scan of `CheckChar`: index of the first
colon among `Answer[0..6]`, or `DESIGNATOR` if there is none. -/
def colonIndex (ans : Nat → Char) : Nat :=
  colonIndexFrom ans 0 DESIGNATOR

/-- The copy loop of `CheckChar`: bytes copied into `UsefulInfo`, reading
`Answer` from index `j` on, stopping at the first `'\r'` or after `fuel`
iterations. -/
def copyUseful (ans : Nat → Char) : Nat → Nat → List Char
  | _, 0 => []
  | j, fuel + 1 =>
    if ans j = '\r' then [] else ans j :: copyUseful ans (j + 1) fuel

/-- Contents of `UsefulInfo` (up to the final NUL write) after `CheckChar`
ran its two loops on `Answer`. -/
def usefulInfo (ans : Nat → Char) : List Char :=
  copyUseful ans (colonIndex ans + 1) INFOLENGTH

/-- The value that ends up in the selected `prev...` array: the `switch`
copies `UsefulInfo` only up to its first NUL byte. -/
def storedValue (ans : Nat → Char) : String :=
  String.mk ((usefulInfo ans).takeWhile (fun c => c ≠ nulChar))

/-- Which store field a `CommandID` selects (`switch (CommandID)`). -/
def fieldOfID (cmdID : Nat) : Option ConfigField :=
  if cmdID = UARTID then some ConfigField.Uart
  else if cmdID = NAMEID then some ConfigField.Name
  else if cmdID = PSWDID then some ConfigField.Password
  else if cmdID = ROLEID then some ConfigField.Role
  else none

/-- Overwrite one field of the store. -/
def setField (f : ConfigField) (v : String) (s : ConfigStore) : ConfigStore :=
  match f with
  | ConfigField.Uart => { s with prevUART := v }
  | ConfigField.Name => { s with prevNAME := v }
  | ConfigField.Password => { s with prevPSWD := v }
  | ConfigField.Role => { s with prevROLE := v }

/-- `CheckChar(Answer, CommandID)`: parse `Answer` and record the parsed
value into the field selected by `CommandID`. -/
def CheckChar (ans : Nat → Char) (cmdID : Nat) (s : ConfigStore) : ConfigStore :=
  match fieldOfID cmdID with
  | some f => setField f (storedValue ans) s
  | none => s

/-! ### `ReadAnswer` — drain the receive buffer, then parse -/

/-- The parsed value `ReadAnswer` records for a burst `delivered`: the
buffer holds the delivered bytes, then the NUL written at
`ReceivedString[i]`, then stack garbage `junk`. -/
def parsedOf (delivered : List Char) (junk : Nat → Char) : String :=
  storedValue (bufOf (delivered ++ [nulChar]) junk)

/-- `ReadAnswer(CommandID)` once the transport has delivered the burst
`delivered` (nonempty in any terminating run): drains it into
`ReceivedString`, NUL-terminates, and calls `CheckChar` unless the first
byte is NUL. Returns the store and the trace of store writes. -/
def ReadAnswer (delivered : List Char) (junk : Nat → Char) (cmdID : Nat)
    (s : ConfigStore) : ConfigStore × List Event :=
  if delivered.getD 0 nulChar ≠ nulChar then
    (CheckChar (bufOf (delivered ++ [nulChar]) junk) cmdID s,
      match fieldOfID cmdID with
      | some f => [Event.storeWrite f (parsedOf delivered junk)]
      | none => [])
  else (s, [])

/-- The wait loop at the head of `ReadAnswer`
(`while (Read == false) { if (Serial.available() > 0) ... }`): polling the
bytes-available signal `avail` from poll instant `t`, with `fuel` polls
allowed; returns the instant at which bytes were first seen. -/
def waitForFirstByte (avail : Nat → Nat) : Nat → Nat → Option Nat
  | _, 0 => none
  | t, fuel + 1 => if 0 < avail t then some t else waitForFirstByte avail (t + 1) fuel

/-! ### The mode functions -/

/-- `ProgrammingMode()`: four fixed set commands, then bridge the module to
the target (`EN_AB`, `EN_RST` HIGH). Reads nothing from the store. -/
def ProgrammingMode (_s : ConfigStore) : List Event :=
  [Event.serialWrite "AT+UART=115200,0,0\r\n",
   Event.serialWrite "AT+NAME=BT_Programmer\r\n",
   Event.serialWrite "AT+ROLE=0\r\n",
   Event.serialWrite "AT+PSWD=1234\r\n",
   Event.pinWrite EN_AB true,
   Event.pinWrite EN_RST true]

/-- `CommunicationMode()`: four set commands built from the stored values,
then leave the local controller lines open (`EN_AB`, `EN_RST` LOW). -/
def CommunicationMode (s : ConfigStore) : List Event :=
  [Event.serialWrite "AT+UART=", Event.serialWrite s.prevUART, Event.serialWrite "\r\n",
   Event.serialWrite "AT+NAME=", Event.serialWrite s.prevNAME, Event.serialWrite "\r\n",
   Event.serialWrite "AT+PSWD=", Event.serialWrite s.prevPSWD, Event.serialWrite "\r\n",
   Event.serialWrite "AT+ROLE=", Event.serialWrite s.prevROLE, Event.serialWrite "\r\n",
   Event.pinWrite EN_AB false,
   Event.pinWrite EN_RST false]

/-- `CheckMode()`: busy indication, bus setup, AT re-entry, `AT+ORGL`, the
mode fork on the `CP` input (`cp = false` is LOW, selecting Programming),
`AT+INIT`, AT exit. The store is not modified by this call. -/
def CheckMode (cp : Bool) (s : ConfigStore) : List Event :=
  [Event.pinWrite BusyLED false,
   Event.pinWrite EN_MB true,
   Event.pinWrite EN_AB false,
   Event.pinWrite EN_RST false,
   Event.pinWrite KEY34 true,
   Event.pinWrite RESETBT false,
   Event.pinWrite RESETBT true,
   Event.serialWrite "AT+ORGL\r\n"] ++
  (if cp = false then ProgrammingMode s else CommunicationMode s) ++
  [Event.serialWrite "AT+INIT\r\n",
   Event.pinWrite KEY34 false,
   Event.pinWrite RESETBT false,
   Event.pinWrite RESETBT true,
   Event.pinWrite EN_MB false,
   Event.pinWrite BusyLED true]

/-- `SavePrevious()`: the four query transactions in order UART, NAME,
PSWD, ROLE, each immediately followed by its `ReadAnswer`; `r1..r4` are the
bursts the transport delivers for the four queries and `j1..j4` the stack
garbage beyond each burst. Returns the updated store and the trace. -/
def SavePrevious (r1 r2 r3 r4 : List Char) (j1 j2 j3 j4 : Nat → Char)
    (s : ConfigStore) : ConfigStore × List Event :=
  let a1 := ReadAnswer r1 j1 UARTID s
  let a2 := ReadAnswer r2 j2 NAMEID a1.1
  let a3 := ReadAnswer r3 j3 PSWDID a2.1
  let a4 := ReadAnswer r4 j4 ROLEID a3.1
  (a4.1,
    [Event.pinWrite SavingLED false,
     Event.pinWrite EN_MB true,
     Event.serialWrite "AT+UART?\r\n"] ++ a1.2 ++
    [Event.serialWrite "AT+NAME?\r\n"] ++ a2.2 ++
    [Event.serialWrite "AT+PSWD?\r\n"] ++ a3.2 ++
    [Event.serialWrite "AT+ROLE?\r\n"] ++ a4.2 ++
    [Event.pinWrite KEY34 false,
     Event.pinWrite RESETBT false,
     Event.pinWrite RESETBT true,
     Event.pinWrite EN_MB false,
     Event.pinWrite SavingLED true])

/-- `setup()`: LED init, AT entry, then `SavePrevious()` and the first
`CheckMode()`.  `s0` is the (empty) store at power-on. -/
def setup (r1 r2 r3 r4 : List Char) (j1 j2 j3 j4 : Nat → Char) (cp : Bool)
    (s0 : ConfigStore) : ConfigStore × List Event :=
  let a := SavePrevious r1 r2 r3 r4 j1 j2 j3 j4 s0
  (a.1,
    [Event.pinWrite BusyLED true,
     Event.pinWrite SavingLED true,
     Event.pinWrite KEY34 true,
     Event.pinWrite RESETBT false,
     Event.pinWrite RESETBT true] ++
    a.2 ++ CheckMode cp a.1)

/-- One iteration of `loop()`: `sw1, sw2, sw3` are the three successive
reads of the `SW` input, `swOld` the debounce state. The mode run fires on
a debounced falling edge and is exactly `CheckMode` — `loop()` never calls
`SavePrevious`. Returns the events of the iteration and the new `SWold`. -/
def loopBody (sw1 sw2 sw3 : Bool) (swOld : Nat) (cp : Bool)
    (s : ConfigStore) : List Event × Nat :=
  (if sw1 = false ∧ swOld ≠ 0 ∧ sw2 = false then CheckMode cp s else [],
   if sw3 = false then 0 else 1)

/-- `true` exactly on events that record into the Configuration Store. -/
def isStoreWrite : Event → Bool
  | Event.storeWrite _ _ => true
  | _ => false

/-! ### Access-index model of the receive and parse path

The receive/parse code of the sketch touches three kinds of 30-byte arrays:
the reply buffer (`ReceivedString`, passed to `CheckChar` as `Answer`), the
scratch buffer `UsefulInfo`, and the four `prev...` arrays. The functions
below return the exact index sequences the loops of `ReadAnswer` and
`CheckChar` read or write on each of them. -/

/-- Indices of `Answer` read by the colon scan. -/
def colonReadIdxs (ans : Nat → Char) : Nat → Nat → List Nat
  | _, 0 => []
  | i, fuel + 1 => if ans i = ':' then [i] else i :: colonReadIdxs ans (i + 1) fuel

/-- Indices of `Answer` read by the copy loop (the final index is the one
at which the `'\r'` test breaks, when it does). -/
def copyReadIdxs (ans : Nat → Char) : Nat → Nat → List Nat
  | _, 0 => []
  | j, fuel + 1 => if ans j = '\r' then [j] else j :: copyReadIdxs ans (j + 1) fuel

/-- All indices of `Answer` read by `CheckChar`. -/
def checkCharAnswerReads (ans : Nat → Char) : List Nat :=
  colonReadIdxs ans 0 DESIGNATOR ++ copyReadIdxs ans (colonIndex ans + 1) INFOLENGTH

/-- Indices of `UsefulInfo` written by `CheckChar`: the copied cells and the
terminating NUL at the final value of `m`. -/
def checkCharUsefulWrites (ans : Nat → Char) : List Nat :=
  List.range (usefulInfo ans).length ++ [(usefulInfo ans).length]

/-- Indices of the selected `prev...` array written by the `switch` of
`CheckChar`: the copied cells and the terminating NUL. -/
def checkCharStoreWrites (ans : Nat → Char) : List Nat :=
  List.range (storedValue ans).length ++ [(storedValue ans).length]

/-- All `CheckChar` accesses land inside the 30-byte arrays. -/
def CheckCharAccessesInBounds (ans : Nat → Char) : Prop :=
  (∀ k ∈ checkCharAnswerReads ans, k < INFOLENGTH) ∧
  (∀ k ∈ checkCharUsefulWrites ans, k < INFOLENGTH) ∧
  (∀ k ∈ checkCharStoreWrites ans, k < INFOLENGTH)

/-- Indices of `ReceivedString` written by the drain loop of `ReadAnswer`
for a burst of `n` bytes: the `n` data cells and the terminating NUL. -/
def readAnswerWriteIdxs (n : Nat) : List Nat := List.range n ++ [n]

/-- The whole receive-and-parse path of one transaction stays inside the
30-byte arrays. -/
def ReadAnswerAccessesInBounds (delivered : List Char) (junk : Nat → Char) : Prop :=
  (∀ k ∈ readAnswerWriteIdxs delivered.length, k < INFOLENGTH) ∧
  (delivered.getD 0 nulChar ≠ nulChar →
    CheckCharAccessesInBounds (bufOf (delivered ++ [nulChar]) junk))

/-! ## Helper lemmas -/

theorem bufOf_getD (l : List Char) (junk : Nat → Char) (k : Nat)
    (h : k < l.length) : bufOf l junk k = l.getD k ' ' := by
  simp [bufOf, h]

theorem serialWrites_append (a b : List Event) :
    serialWrites (a ++ b) = serialWrites a ++ serialWrites b := by
  induction a with
  | nil => rfl
  | cons e t ih => cases e <;> simp [serialWrites, ih]

theorem readAnswer_trace_serials (d : List Char) (j : Nat → Char) (c : Nat)
    (s : ConfigStore) : serialWrites (ReadAnswer d j c s).2 = [] := by
  unfold ReadAnswer
  split
  · split <;> rfl
  · rfl

/-! ## The claims -/

/-- Claim C1: round-trip — whatever values `SavePrevious` captured into the
Configuration Store, `CommunicationMode` emits exactly the four `AT+...=`
set commands carrying those same literal values, in the order Uart, Name,
Password, Role, each framed as `AT+XXXX=<v>` and terminated by CR LF. -/
theorem c1_round_trip (r1 r2 r3 r4 : List Char) (j1 j2 j3 j4 : Nat → Char)
    (s0 : ConfigStore) :
    serialOut (CommunicationMode (SavePrevious r1 r2 r3 r4 j1 j2 j3 j4 s0).1) =
      "AT+UART=" ++ (SavePrevious r1 r2 r3 r4 j1 j2 j3 j4 s0).1.prevUART ++ "\r\n" ++
      ("AT+NAME=" ++ (SavePrevious r1 r2 r3 r4 j1 j2 j3 j4 s0).1.prevNAME ++ "\r\n") ++
      ("AT+PSWD=" ++ (SavePrevious r1 r2 r3 r4 j1 j2 j3 j4 s0).1.prevPSWD ++ "\r\n") ++
      ("AT+ROLE=" ++ (SavePrevious r1 r2 r3 r4 j1 j2 j3 j4 s0).1.prevROLE ++ "\r\n") := by
  generalize (SavePrevious r1 r2 r3 r4 j1 j2 j3 j4 s0).1 = s
  simp [CommunicationMode, serialOut, String.append_assoc]

/-- Claim C2: when the mode-select input samples LOW, the run emits exactly
`AT+ORGL`, `AT+UART=115200,0,0`, `AT+NAME=BT_Programmer`, `AT+ROLE=0`,
`AT+PSWD=1234`, `AT+INIT` (CR-LF terminated, in that order), and leaves the
bus-switching outputs bridging the module to the target: `EN_AB` and
`EN_RST` are last written HIGH. -/
theorem c2_programming_run (s : ConfigStore) :
    serialWrites (CheckMode false s) =
      ["AT+ORGL\r\n", "AT+UART=115200,0,0\r\n", "AT+NAME=BT_Programmer\r\n",
       "AT+ROLE=0\r\n", "AT+PSWD=1234\r\n", "AT+INIT\r\n"] ∧
    lastLevel (CheckMode false s) EN_AB = some true ∧
    lastLevel (CheckMode false s) EN_RST = some true :=
  ⟨rfl, rfl, rfl⟩

/-- Claim C6: noninterference — `ProgrammingMode` never reads the
Configuration Store: two runs with arbitrary stores produce identical
traces, and the serial output is always the fixed literals `115200,0,0`,
`BT_Programmer`, role `0`, password `1234`. -/
theorem c6_noninterference (s1 s2 : ConfigStore) :
    ProgrammingMode s1 = ProgrammingMode s2 ∧
    serialOut (ProgrammingMode s1) =
      "AT+UART=115200,0,0\r\nAT+NAME=BT_Programmer\r\nAT+ROLE=0\r\nAT+PSWD=1234\r\n" :=
  ⟨rfl, rfl⟩

/-- Claim C8: if the transport never reports a byte available, the wait
loop of `ReadAnswer` never exits — no number of polls returns. -/
theorem c8_no_timeout (avail : Nat → Nat) (h : ∀ t, avail t = 0) :
    ∀ fuel t, waitForFirstByte avail t fuel = none := by
  intro fuel
  induction fuel with
  | zero => intro t; rfl
  | succ f ih => intro t; simp [waitForFirstByte, h t, ih]

theorem c8_no_timeout_witness :
    (∀ t, (fun _ : Nat => 0) t = 0) ∧
    waitForFirstByte (fun _ : Nat => 0) 0 1000 = none :=
  ⟨fun _ => rfl, c8_no_timeout (fun _ => 0) (fun _ => rfl) 1000 0⟩

/-- Claim C10: if the first byte of the burst is NUL, `ReadAnswer` records
nothing — the trace holds no store write and all four fields keep exactly
the values they held before the call. -/
theorem c10_nul_guard (delivered : List Char) (junk : Nat → Char)
    (cmdID : Nat) (s : ConfigStore)
    (h : delivered.getD 0 nulChar = nulChar) :
    (ReadAnswer delivered junk cmdID s).2 = [] ∧
    (ReadAnswer delivered junk cmdID s).1.prevUART = s.prevUART ∧
    (ReadAnswer delivered junk cmdID s).1.prevNAME = s.prevNAME ∧
    (ReadAnswer delivered junk cmdID s).1.prevPSWD = s.prevPSWD ∧
    (ReadAnswer delivered junk cmdID s).1.prevROLE = s.prevROLE := by
  unfold ReadAnswer
  rw [if_neg (not_ne_iff.mpr h)]
  exact ⟨rfl, rfl, rfl, rfl, rfl⟩

theorem c10_nul_guard_witness :
    ([nulChar, 'O', 'K'].getD 0 nulChar = nulChar) ∧
    (ReadAnswer [nulChar, 'O', 'K'] (fun _ => 'z') UARTID
        ⟨"9600,0,0", "HC05", "1234", "0"⟩).2 = [] ∧
    (ReadAnswer [nulChar, 'O', 'K'] (fun _ => 'z') UARTID
        ⟨"9600,0,0", "HC05", "1234", "0"⟩).1.prevUART = "9600,0,0" ∧
    (ReadAnswer [nulChar, 'O', 'K'] (fun _ => 'z') UARTID
        ⟨"9600,0,0", "HC05", "1234", "0"⟩).1.prevNAME = "HC05" ∧
    (ReadAnswer [nulChar, 'O', 'K'] (fun _ => 'z') UARTID
        ⟨"9600,0,0", "HC05", "1234", "0"⟩).1.prevPSWD = "1234" ∧
    (ReadAnswer [nulChar, 'O', 'K'] (fun _ => 'z') UARTID
        ⟨"9600,0,0", "HC05", "1234", "0"⟩).1.prevROLE = "0" :=
  ⟨by decide,
    c10_nul_guard [nulChar, 'O', 'K'] (fun _ => 'z') UARTID
      ⟨"9600,0,0", "HC05", "1234", "0"⟩ (by decide)⟩

/-- Claim C3 counterexample: a switch-triggered run (`SW` sampled LOW with
the debounce state armed) is NOT preceded in that run by a fresh capture —
its serial activity is only the mode-apply sequence, with no `AT+...?`
query and no store write at all. This refutes "every switch-triggered Mode
Controller run is preceded in that run by a fresh capture". -/
theorem c3_counterexample :
    serialWrites (loopBody false false false 1 false ⟨"", "", "", ""⟩).1 =
      ["AT+ORGL\r\n", "AT+UART=115200,0,0\r\n", "AT+NAME=BT_Programmer\r\n",
       "AT+ROLE=0\r\n", "AT+PSWD=1234\r\n", "AT+INIT\r\n"] ∧
    "AT+UART?\r\n" ∉ serialWrites (loopBody false false false 1 false ⟨"", "", "", ""⟩).1 ∧
    ∀ e ∈ (loopBody false false false 1 false ⟨"", "", "", ""⟩).1,
      isStoreWrite e = false := by
  refine ⟨rfl, by decide, by decide⟩

/-- Claim C3 amended: the capture runs exactly once per boot — `setup`
issues the four queries (the whole `SavePrevious` serial activity) before
the first mode run's commands — while a switch-triggered `loop` iteration
never records into the Configuration Store. -/
theorem c3_capture_once_per_boot (r1 r2 r3 r4 : List Char)
    (j1 j2 j3 j4 : Nat → Char) (cp : Bool) (s0 : ConfigStore)
    (sw1 sw2 sw3 : Bool) (swOld : Nat) (cp2 : Bool) (s : ConfigStore) :
    serialWrites (setup r1 r2 r3 r4 j1 j2 j3 j4 cp s0).2 =
      ["AT+UART?\r\n", "AT+NAME?\r\n", "AT+PSWD?\r\n", "AT+ROLE?\r\n"] ++
        serialWrites (CheckMode cp (setup r1 r2 r3 r4 j1 j2 j3 j4 cp s0).1) ∧
    ((loopBody sw1 sw2 sw3 swOld cp2 s).1.all fun e => !(isStoreWrite e)) = true := by
  constructor
  · simp [setup, SavePrevious, serialWrites_append, readAnswer_trace_serials,
      serialWrites]
  · show ((if sw1 = false ∧ swOld ≠ 0 ∧ sw2 = false then CheckMode cp2 s
      else []).all fun e => !(isStoreWrite e)) = true
    split
    · cases cp2 <;> rfl
    · rfl

/-- Claim C7: `SavePrevious` issues the four queries in exactly the order
`AT+UART?`, `AT+NAME?`, `AT+PSWD?`, `AT+ROLE?`, and (whenever each reply
starts with a non-NUL byte) the parsed value is recorded into the matching
field before the next query is issued — the full trace interleaves query
and store write strictly in that order. -/
theorem c7_save_order (r1 r2 r3 r4 : List Char) (j1 j2 j3 j4 : Nat → Char)
    (s : ConfigStore)
    (h1 : r1.getD 0 nulChar ≠ nulChar) (h2 : r2.getD 0 nulChar ≠ nulChar)
    (h3 : r3.getD 0 nulChar ≠ nulChar) (h4 : r4.getD 0 nulChar ≠ nulChar) :
    (SavePrevious r1 r2 r3 r4 j1 j2 j3 j4 s).2 =
      [Event.pinWrite SavingLED false,
       Event.pinWrite EN_MB true,
       Event.serialWrite "AT+UART?\r\n",
       Event.storeWrite ConfigField.Uart (parsedOf r1 j1),
       Event.serialWrite "AT+NAME?\r\n",
       Event.storeWrite ConfigField.Name (parsedOf r2 j2),
       Event.serialWrite "AT+PSWD?\r\n",
       Event.storeWrite ConfigField.Password (parsedOf r3 j3),
       Event.serialWrite "AT+ROLE?\r\n",
       Event.storeWrite ConfigField.Role (parsedOf r4 j4),
       Event.pinWrite KEY34 false,
       Event.pinWrite RESETBT false,
       Event.pinWrite RESETBT true,
       Event.pinWrite EN_MB false,
       Event.pinWrite SavingLED true] := by
  unfold SavePrevious ReadAnswer
  simp only [if_pos h1, if_pos h2, if_pos h3, if_pos h4]
  rfl

theorem c7_save_order_witness :
    ("+UART:9600,0,0\r\nOK\r\n".data.getD 0 nulChar ≠ nulChar) ∧
    ("+NAME:HC05\r\nOK\r\n".data.getD 0 nulChar ≠ nulChar) ∧
    ("+PSWD:1234\r\nOK\r\n".data.getD 0 nulChar ≠ nulChar) ∧
    ("+ROLE:0\r\nOK\r\n".data.getD 0 nulChar ≠ nulChar) ∧
    (SavePrevious "+UART:9600,0,0\r\nOK\r\n".data "+NAME:HC05\r\nOK\r\n".data
        "+PSWD:1234\r\nOK\r\n".data "+ROLE:0\r\nOK\r\n".data
        (fun _ => 'z') (fun _ => 'z') (fun _ => 'z') (fun _ => 'z')
        ⟨"", "", "", ""⟩).2 =
      [Event.pinWrite SavingLED false,
       Event.pinWrite EN_MB true,
       Event.serialWrite "AT+UART?\r\n",
       Event.storeWrite ConfigField.Uart (parsedOf "+UART:9600,0,0\r\nOK\r\n".data (fun _ => 'z')),
       Event.serialWrite "AT+NAME?\r\n",
       Event.storeWrite ConfigField.Name (parsedOf "+NAME:HC05\r\nOK\r\n".data (fun _ => 'z')),
       Event.serialWrite "AT+PSWD?\r\n",
       Event.storeWrite ConfigField.Password (parsedOf "+PSWD:1234\r\nOK\r\n".data (fun _ => 'z')),
       Event.serialWrite "AT+ROLE?\r\n",
       Event.storeWrite ConfigField.Role (parsedOf "+ROLE:0\r\nOK\r\n".data (fun _ => 'z')),
       Event.pinWrite KEY34 false,
       Event.pinWrite RESETBT false,
       Event.pinWrite RESETBT true,
       Event.pinWrite EN_MB false,
       Event.pinWrite SavingLED true] :=
  ⟨by decide, by decide, by decide, by decide,
    c7_save_order "+UART:9600,0,0\r\nOK\r\n".data "+NAME:HC05\r\nOK\r\n".data
      "+PSWD:1234\r\nOK\r\n".data "+ROLE:0\r\nOK\r\n".data
      (fun _ => 'z') (fun _ => 'z') (fun _ => 'z') (fun _ => 'z')
      ⟨"", "", "", ""⟩ (by decide) (by decide) (by decide) (by decide)⟩

/-! ## Colon-scan and copy-loop characterisations -/

theorem colonIndexFrom_found (ans : Nat → Char) :
    ∀ d i fuel, d < fuel → (∀ m, m < d → ans (i + m) ≠ ':') →
      ans (i + d) = ':' → colonIndexFrom ans i fuel = i + d := by
  intro d
  induction d with
  | zero =>
      intro i fuel hlt _ hcol
      obtain ⟨f, rfl⟩ : ∃ f, fuel = f + 1 := ⟨fuel - 1, by omega⟩
      have hi : ans i = ':' := by simpa using hcol
      simp [colonIndexFrom, hi]
  | succ d ih =>
      intro i fuel hlt hno hcol
      obtain ⟨f, rfl⟩ : ∃ f, fuel = f + 1 := ⟨fuel - 1, by omega⟩
      have h0 : ans i ≠ ':' := by simpa using hno 0 (by omega)
      have step : colonIndexFrom ans i (f + 1) = colonIndexFrom ans (i + 1) f := by
        simp [colonIndexFrom, h0]
      have hno' : ∀ m, m < d → ans (i + 1 + m) ≠ ':' := by
        intro m hm
        have h := hno (m + 1) (by omega)
        have e : i + (m + 1) = i + 1 + m := by omega
        rwa [e] at h
      have hcol' : ans (i + 1 + d) = ':' := by
        have e : i + (d + 1) = i + 1 + d := by omega
        rwa [e] at hcol
      rw [step, ih (i + 1) f (by omega) hno' hcol']
      omega

theorem colonIndexFrom_none (ans : Nat → Char) :
    ∀ fuel i, (∀ m, m < fuel → ans (i + m) ≠ ':') →
      colonIndexFrom ans i fuel = i + fuel := by
  intro fuel
  induction fuel with
  | zero => intro i _; simp [colonIndexFrom]
  | succ f ih =>
      intro i hno
      have h0 : ans i ≠ ':' := by simpa using hno 0 (by omega)
      have step : colonIndexFrom ans i (f + 1) = colonIndexFrom ans (i + 1) f := by
        simp [colonIndexFrom, h0]
      have hno' : ∀ m, m < f → ans (i + 1 + m) ≠ ':' := by
        intro m hm
        have h := hno (m + 1) (by omega)
        have e : i + (m + 1) = i + 1 + m := by omega
        rwa [e] at h
      rw [step, ih (i + 1) hno']
      omega

theorem copyUseful_spec (v : List Char) :
    ∀ (ans : Nat → Char) (j fuel : Nat),
      (∀ m (h : m < v.length), ans (j + m) = v.get ⟨m, h⟩) →
      ans (j + v.length) = '\r' →
      (∀ c ∈ v, c ≠ '\r') →
      v.length < fuel →
      copyUseful ans j fuel = v := by
  induction v with
  | nil =>
      intro ans j fuel _ hcr _ hlt
      obtain ⟨f, rfl⟩ : ∃ f, fuel = f + 1 := ⟨fuel - 1, by omega⟩
      have hj : ans j = '\r' := by simpa using hcr
      simp [copyUseful, hj]
  | cons c v ih =>
      intro ans j fuel hag hcr hnc hlt
      obtain ⟨f, rfl⟩ : ∃ f, fuel = f + 1 := ⟨fuel - 1, by omega⟩
      have h0 : ans j = c := by simpa using hag 0 (by simp)
      have hcnotr : ans j ≠ '\r' := by
        rw [h0]; exact hnc c (by simp)
      have step : copyUseful ans j (f + 1) = ans j :: copyUseful ans (j + 1) f := by
        simp [copyUseful, hcnotr]
      rw [step, h0]
      congr 1
      apply ih
      · intro m hm
        have h := hag (m + 1) (by simpa using Nat.succ_lt_succ hm)
        have e : j + (m + 1) = j + 1 + m := by omega
        rw [e] at h
        simpa using h
      · have h : ans (j + (c :: v).length) = '\r' := hcr
        have e : j + (c :: v).length = j + 1 + v.length := by simp; omega
        rwa [e] at h
      · intro x hx; exact hnc x (by simp [hx])
      · simpa using Nat.lt_of_succ_lt_succ (by simpa using hlt)

/-- Claim C4: for every reply `+UART:<v>\r\n<trailing>`, with `<v>` free of
carriage returns and at most 29 bytes, the parser extracts exactly `<v>`. -/
theorem c4_uart_reply_extracted (v rest : List Char) (junk : Nat → Char)
    (hcr : '\r' ∉ v) (hlen : v.length ≤ 29) :
    usefulInfo (bufOf ("+UART:".data ++ (v ++ '\r' :: '\n' :: rest)) junk) = v := by
  have hdata : "+UART:".data = ['+', 'U', 'A', 'R', 'T', ':'] := rfl
  have hplen : ("+UART:".data).length = 6 := rfl
  set L : List Char := "+UART:".data ++ (v ++ '\r' :: '\n' :: rest) with hL
  have hLlen : L.length = 8 + v.length + rest.length := by
    simp [hL]; omega
  set ans := bufOf L junk with hans
  -- values of the buffer in the fixed preamble
  have hpre : ∀ m, m < 6 → ans m = ['+', 'U', 'A', 'R', 'T', ':'].getD m ' ' := by
    intro m hm
    rw [hans, bufOf_getD L junk m (by omega), hL,
      List.getD_append _ _ _ _ (by omega), hdata]
  -- the colon scan stops at index 5
  have hci : colonIndex ans = 5 := by
    have hno : ∀ m, m < 5 → ans (0 + m) ≠ ':' := by
      intro m hm
      rw [Nat.zero_add, hpre m (by omega)]
      interval_cases m <;> decide
    have hcol : ans (0 + 5) = ':' := by
      rw [Nat.zero_add, hpre 5 (by omega)]
      rfl
    have := colonIndexFrom_found ans 5 0 DESIGNATOR (by decide) hno hcol
    simpa [colonIndex] using this
  -- the copy loop reads the value bytes then the terminating '\r'
  have hag : ∀ m (h : m < v.length), ans (6 + m) = v.get ⟨m, h⟩ := by
    intro m h
    rw [hans, bufOf_getD L junk (6 + m) (by omega), hL,
      List.getD_append_right _ _ _ _ (by omega), hplen]
    have e : 6 + m - 6 = m := by omega
    rw [e, List.getD_append _ _ _ _ (by omega), List.getD_eq_getElem v ' ' h]
    rfl
  have hterm : ans (6 + v.length) = '\r' := by
    rw [hans, bufOf_getD L junk (6 + v.length) (by omega), hL,
      List.getD_append_right _ _ _ _ (by omega), hplen]
    have e : 6 + v.length - 6 = v.length := by omega
    rw [e, List.getD_append_right _ _ _ _ (by omega), Nat.sub_self]
    rfl
  have hnc : ∀ c ∈ v, c ≠ '\r' := fun c hc he => hcr (he ▸ hc)
  rw [usefulInfo, hci]
  exact copyUseful_spec v ans 6 INFOLENGTH hag hterm hnc (by simp [INFOLENGTH]; omega)

theorem c4_uart_reply_extracted_witness :
    ('\r' ∉ "9600,0,0".data) ∧ ("9600,0,0".data.length ≤ 29) ∧
    usefulInfo (bufOf ("+UART:".data ++
        ("9600,0,0".data ++ '\r' :: '\n' :: "OK\r\n".data)) (fun _ => 'z')) =
      "9600,0,0".data :=
  ⟨by decide, by decide,
    c4_uart_reply_extracted "9600,0,0".data "OK\r\n".data (fun _ => 'z')
      (by decide) (by decide)⟩

/-! ## Bounds of the receive and parse accesses -/

theorem colonReadIdxs_lt (ans : Nat → Char) :
    ∀ fuel i, ∀ k ∈ colonReadIdxs ans i fuel, k < i + fuel := by
  intro fuel
  induction fuel with
  | zero => intro i k hk; simp [colonReadIdxs] at hk
  | succ f ih =>
      intro i k hk
      by_cases h : ans i = ':'
      · simp [colonReadIdxs, h] at hk
        omega
      · simp only [colonReadIdxs, if_neg h, List.mem_cons] at hk
        rcases hk with rfl | hk
        · omega
        · have := ih (i + 1) k hk
          omega

theorem copyReadIdxs_le (ans : Nat → Char) (J : Nat) (hJ : ans J = '\r') :
    ∀ fuel j, j ≤ J → ∀ k ∈ copyReadIdxs ans j fuel, k ≤ J := by
  intro fuel
  induction fuel with
  | zero => intro j _ k hk; simp [copyReadIdxs] at hk
  | succ f ih =>
      intro j hj k hk
      by_cases h : ans j = '\r'
      · simp [copyReadIdxs, h] at hk
        omega
      · have hjJ : j < J := by
          rcases Nat.lt_or_ge j J with h' | h'
          · exact h'
          · exact absurd (show ans j = '\r' by rw [show j = J by omega]; exact hJ) h
        simp only [copyReadIdxs, if_neg h, List.mem_cons] at hk
        rcases hk with rfl | hk
        · omega
        · exact ih (j + 1) (by omega) k hk

theorem copyUseful_length_le (ans : Nat → Char) (J : Nat) (hJ : ans J = '\r') :
    ∀ fuel j, j ≤ J → (copyUseful ans j fuel).length ≤ J - j := by
  intro fuel
  induction fuel with
  | zero => intro j _; simp [copyUseful]
  | succ f ih =>
      intro j hj
      by_cases h : ans j = '\r'
      · simp [copyUseful, h]
      · have hjJ : j < J := by
          rcases Nat.lt_or_ge j J with h' | h'
          · exact h'
          · exact absurd (show ans j = '\r' by rw [show j = J by omega]; exact hJ) h
        have := ih (j + 1) (by omega)
        simp only [copyUseful, if_neg h, List.length_cons]
        omega

theorem takeWhile_length_le (p : Char → Bool) :
    ∀ l : List Char, (l.takeWhile p).length ≤ l.length := by
  intro l
  induction l with
  | nil => simp
  | cons c t ih =>
      by_cases h : p c
      · simp [List.takeWhile_cons, h]
        omega
      · simp [List.takeWhile_cons, h]

/-- If the buffer holds a carriage return at an index above the colon-scan
position and at most 29, every access `CheckChar` performs is in bounds. -/
theorem checkChar_bounds_of_cr (ans : Nat → Char) (J : Nat)
    (h1 : colonIndex ans < J) (h2 : J ≤ 29) (h3 : ans J = '\r') :
    CheckCharAccessesInBounds ans := by
  have hul : (usefulInfo ans).length ≤ J - (colonIndex ans + 1) :=
    copyUseful_length_le ans J h3 INFOLENGTH (colonIndex ans + 1) (by omega)
  have hsl : (storedValue ans).length ≤ (usefulInfo ans).length := by
    have := takeWhile_length_le (fun c => c ≠ nulChar) (usefulInfo ans)
    simpa [storedValue, String.length] using this
  refine ⟨?_, ?_, ?_⟩
  · intro k hk
    simp only [checkCharAnswerReads, List.mem_append] at hk
    rcases hk with hk | hk
    · have := colonReadIdxs_lt ans DESIGNATOR 0 k hk
      simp only [DESIGNATOR] at this
      simp only [INFOLENGTH]
      omega
    · have := copyReadIdxs_le ans J h3 INFOLENGTH (colonIndex ans + 1) (by omega) k hk
      simp only [INFOLENGTH]
      omega
  · intro k hk
    simp only [checkCharUsefulWrites, List.mem_append, List.mem_range,
      List.mem_singleton] at hk
    simp only [INFOLENGTH]
    rcases hk with hk | rfl
    · omega
    · omega
  · intro k hk
    simp only [checkCharStoreWrites, List.mem_append, List.mem_range,
      List.mem_singleton] at hk
    simp only [INFOLENGTH]
    rcases hk with hk | rfl
    · omega
    · omega

/-- Claim C5 counterexample: a reply of thirty `'A'` bytes (arbitrary
memory beyond also `'A'`) has no colon within the first 7 bytes, yet
`CheckChar` does NOT keep its accesses in bounds: with no carriage return
in reach, the copy loop reads `Answer[8..37]` and the terminating NUL is
written at `UsefulInfo[30]`. This refutes "performs no out-of-bounds
memory access". -/
theorem c5_counterexample :
    (∀ i, i < DESIGNATOR →
      bufOf (List.replicate 30 'A') (fun _ => 'A') i ≠ ':') ∧
    ¬ CheckCharAccessesInBounds (bufOf (List.replicate 30 'A') (fun _ => 'A')) := by
  constructor
  · decide
  · intro h
    have := h.1 37 (by decide)
    simp [INFOLENGTH] at this

/-- Claim C5 amended: on a reply with no colon within the first 7 bytes the
parser's behaviour is still fully determined — the scan index lands exactly
on the 7-byte bound, so copying starts just past it — but its memory
accesses stay inside the 30-byte arrays only when the reply carries a
carriage return at an index after the bound and at most 29. -/
theorem c5_no_colon_defined (ans : Nat → Char)
    (hnc : ∀ i, i < DESIGNATOR → ans i ≠ ':') :
    colonIndex ans = DESIGNATOR ∧
    usefulInfo ans = copyUseful ans (DESIGNATOR + 1) INFOLENGTH ∧
    (∀ J, DESIGNATOR < J → J ≤ 29 → ans J = '\r' →
      CheckCharAccessesInBounds ans) := by
  have hci : colonIndex ans = DESIGNATOR := by
    have := colonIndexFrom_none ans DESIGNATOR 0
      (fun m hm => by simpa using hnc m hm)
    simpa [colonIndex] using this
  refine ⟨hci, by rw [usefulInfo, hci], ?_⟩
  intro J hJ1 hJ2 hJ3
  exact checkChar_bounds_of_cr ans J (by omega) hJ2 hJ3

theorem c5_no_colon_defined_witness :
    (∀ i, i < DESIGNATOR →
      bufOf "ABCDEFGH\rZ".data (fun _ => 'z') i ≠ ':') ∧
    colonIndex (bufOf "ABCDEFGH\rZ".data (fun _ => 'z')) = DESIGNATOR ∧
    CheckCharAccessesInBounds (bufOf "ABCDEFGH\rZ".data (fun _ => 'z')) :=
  ⟨by decide,
    (c5_no_colon_defined (bufOf "ABCDEFGH\rZ".data (fun _ => 'z')) (by decide)).1,
    (c5_no_colon_defined (bufOf "ABCDEFGH\rZ".data (fun _ => 'z')) (by decide)).2.2
      8 (by decide) (by decide) (by decide)⟩

/-- Claim C9 counterexample: a burst of thirty bytes makes the drain loop
of `ReadAnswer` write its terminating NUL at `ReceivedString[30]`, outside
the 30-byte buffer — the receive path is not bounds-safe for every
delivered byte sequence. -/
theorem c9_counterexample :
    ¬ ReadAnswerAccessesInBounds (List.replicate 30 'A') (fun _ => 'A') := by
  intro h
  have := h.1 30 (by decide)
  simp [INFOLENGTH] at this

/-- Claim C9 amended: the receive and parse path keeps every access inside
the 30-byte arrays provided the transaction delivers at most 29 bytes and
the resulting buffer carries a carriage return after the colon-scan
position at an index of at most 29. -/
theorem c9_bounded_receive_safe (delivered : List Char) (junk : Nat → Char)
    (J : Nat) (hlen : delivered.length ≤ 29)
    (hci : colonIndex (bufOf (delivered ++ [nulChar]) junk) < J)
    (hJ : J ≤ 29)
    (hcr : bufOf (delivered ++ [nulChar]) junk J = '\r') :
    ReadAnswerAccessesInBounds delivered junk := by
  constructor
  · intro k hk
    simp only [readAnswerWriteIdxs, List.mem_append, List.mem_range,
      List.mem_singleton] at hk
    simp only [INFOLENGTH]
    rcases hk with hk | rfl
    · omega
    · omega
  · intro _
    exact checkChar_bounds_of_cr _ J hci hJ hcr

theorem c9_bounded_receive_safe_witness :
    ("+UART:9600,0,0\r\nOK\r\n".data.length ≤ 29) ∧
    ReadAnswerAccessesInBounds "+UART:9600,0,0\r\nOK\r\n".data (fun _ => 'z') :=
  ⟨by decide,
    c9_bounded_receive_safe "+UART:9600,0,0\r\nOK\r\n".data (fun _ => 'z') 14
      (by decide) (by decide) (by decide) (by decide)⟩

end ATmega
